import Mathlib

/-!
Shallow embedding of the band_check repository's core
(`parse_phone_bands`, `compare_phone_to_carrier`,
`calculate_compatibility_score` from `band_check_perplexity.py`, the
variant the specification adopts), together with theorems settling the
specification claims.

Modelling conventions:
* Text is a `List Char` (obtained from `String.data`); character classes
  mirror Python's ASCII `\d`, `\w`, `\s`.
* Python `set` becomes `Finset ℕ`; `sorted(list(s))` becomes `bandSort`,
  a structural insertion sort on the underlying multiset (so that
  concrete runs reduce inside the kernel).
* Each regex of the source is compiled by hand into a scanner that walks
  the character list exactly as CPython's backtracking engine does on
  these patterns (leftmost scan, greedy repetition, non-overlapping
  resumption after each hit).  Scanners whose recursion consumes a
  data-dependent number of characters take a fuel argument; callers pass
  `length + 1`, which can never be exhausted because every step consumes
  at least one character.
* The per-candidate `int(...)` guarded by `try/except ValueError` is
  `pyInt?`, an `Option`-valued parse whose `none` branch is the silent
  drop of the source.
-/

namespace BandCheck

/-- ASCII decimal digit, Python regex `\d` on ASCII input. -/
def isDigitChar (c : Char) : Bool := c.isDigit

/-- Python regex word character `\w` on ASCII input: letter, digit or underscore. -/
def isWordChar (c : Char) : Bool := c.isAlphanum || c = '_'

/-- Python regex whitespace `\s` on ASCII input. -/
def isSpaceChar (c : Char) : Bool :=
  c = ' ' || c = '\t' || c = '\n' || c = '\r' || c = '\x0b' || c = '\x0c'

/-- Character class `[/\s,]`, the separators of the chained 5G shorthand. -/
def isSepChar (c : Char) : Bool := c = '/' || c = ',' || isSpaceChar c

/-- Case-insensitive marker letter of an NR band (`n` in the 5G regex). -/
def isNChar (c : Char) : Bool := c = 'n' || c = 'N'

/-- Case-insensitive LTE band marker letter (`B` in the LTE regex). -/
def isBChar (c : Char) : Bool := c = 'B' || c = 'b'

/-- Band-class letter `[abAB]` allowed to trail an LTE band number. -/
def isClassChar (c : Char) : Bool := c = 'a' || c = 'b' || c = 'A' || c = 'B'

/-- Value of a decimal digit string, as computed by Python `int` on `\d+` captures. -/
def digitsToNat (l : List Char) : ℕ :=
  l.foldl (fun acc c => 10 * acc + (c.toNat - 48)) 0

/-- Python `int(part)` under `try/except ValueError`: succeeds on a nonempty
digit string, otherwise reports failure (the source then silently drops the
candidate). -/
def pyInt? (l : List Char) : Option ℕ :=
  if l.isEmpty then none
  else if l.all isDigitChar then some (digitsToNat l) else none

/-- Python `text.split(chr 10)`: cut the character list at every newline. -/
def splitLines : List Char → List (List Char)
  | [] => [[]]
  | c :: rest =>
    if c = '\n' then [] :: splitLines rest
    else
      match splitLines rest with
      | [] => [[c]]
      | l :: ls => (c :: l) :: ls

/-- Python `line.strip()`: drop whitespace from both ends. -/
def pyStrip (l : List Char) : List Char :=
  ((l.dropWhile isSpaceChar).reverse.dropWhile isSpaceChar).reverse

/-- Word-boundary test `\b` at the current position: `pw` records whether
the previous character was a word character; the boundary holds when
exactly one side is a word character. -/
def atBoundary (pw : Bool) : List Char → Bool
  | [] => pw
  | c :: _ => pw != isWordChar c

/-- Case-insensitive literal match: consume the pattern (given lowercase)
from the front of the text, returning the rest on success. -/
def matchCI : List Char → List Char → Option (List Char)
  | [], l => some l
  | _ :: _, [] => none
  | p :: ps, c :: cs => if c.toLower = p then matchCI ps cs else none

/-- Trailing `\b` after a keyword whose last character is a word character:
holds at end of text or before a non-word character. -/
def boundaryAfterWord : List Char → Bool
  | [] => true
  | c :: _ => !isWordChar c

/-- One alternative of `\b(4G|LTE|TD-LTE|FDD)\b` matched at the current position. -/
def kwAt (pat l : List Char) : Bool :=
  match matchCI pat l with
  | some r => boundaryAfterWord r
  | none => false

/-- Whole-keyword hit of `\b(4G|LTE|TD-LTE|FDD)\b` at the current position. -/
def kwHere (pw : Bool) (l : List Char) : Bool :=
  atBoundary pw l &&
    (kwAt ['4', 'g'] l || kwAt ['l', 't', 'e'] l ||
      kwAt ['t', 'd', '-', 'l', 't', 'e'] l || kwAt ['f', 'd', 'd'] l)

/-- Python `re.search(rb4G-LTE-keywords, line, IGNORECASE)` as existence of a
hit at some position; the scanner advances one character at a time,
tracking the word-ness of the previous character. -/
def hasKeyword : Bool → List Char → Bool
  | _, [] => false
  | pw, c :: rest => kwHere pw (c :: rest) || hasKeyword (isWordChar c) rest

/-- Hit of `\bB\d+` at the current position. -/
def bdHere (pw : Bool) (l : List Char) : Bool :=
  match l with
  | c :: d :: _ => atBoundary pw (c :: d :: []) && isBChar c && isDigitChar d
  | _ => false

/-- Python `re.search(r'\bB\d+', line, IGNORECASE)` as existence of a hit. -/
def hasBDigit : Bool → List Char → Bool
  | _, [] => false
  | pw, c :: rest => bdHere pw (c :: rest) || hasBDigit (isWordChar c) rest

/-- The line filter of the LTE loop: an LTE keyword matched as a whole word,
or a `B`-plus-digits token, anywhere in the stripped line. -/
def lineEligible (l : List Char) : Bool := hasKeyword false l || hasBDigit false l

/-- Scan to just past the first `)` (the greedy `[^)]*\)` tail of the
parenthesis-stripping pattern); `none` when no `)` remains. -/
def dropThroughRParen : List Char → Option (List Char)
  | [] => none
  | c :: rest => if c = ')' then some rest else dropThroughRParen rest

/-- Attempt of `\s*\([^)]*\)` at the current position: optional whitespace
up to a literal `(`, then everything through the first `)`.  Returns the
text after the match. -/
def parenMatch (l : List Char) : Option (List Char) :=
  match l.dropWhile isSpaceChar with
  | '(' :: r => dropThroughRParen r
  | _ => none

/-- Python `re.sub(parenthetical, empty, line)`: delete every leftmost
non-overlapping `\s*\([^)]*\)` match.  A successful match consumes at least
two characters and a failure consumes one, so fuel `length + 1` never runs
out. -/
def stripParensF : ℕ → List Char → List Char
  | 0, l => l
  | _ + 1, [] => []
  | fuel + 1, c :: rest =>
    match parenMatch (c :: rest) with
    | some r => stripParensF fuel r
    | none => c :: stripParensF fuel rest

/-- Parenthetical-stripping entry point with sufficient fuel. -/
def stripParens (l : List Char) : List Char := stripParensF (l.length + 1) l

/-- Greedy tail `(?:[/\s,]\d+)*` of the 5G regex: repeatedly consume one
separator followed by a nonempty digit run, returning the consumed chunk
and the rest. -/
def nrChainF : ℕ → List Char → List Char × List Char
  | 0, l => ([], l)
  | _ + 1, [] => ([], [])
  | fuel + 1, c :: rest =>
    if isSepChar c then
      let d := rest.takeWhile isDigitChar
      if d.isEmpty then ([], c :: rest)
      else
        let p := nrChainF fuel (rest.dropWhile isDigitChar)
        (c :: (d ++ p.1), p.2)
    else ([], c :: rest)

/-- Attempt of `n(\d+(?:[/\s,]\d+)*)` at the current position (no word
boundary is required before the `n`): returns the captured group and the
text where scanning resumes. -/
def nrMatchHere : List Char → Option (List Char × List Char)
  | [] => none
  | c :: rest =>
    if isNChar c then
      let d := rest.takeWhile isDigitChar
      if d.isEmpty then none
      else
        let r := rest.dropWhile isDigitChar
        let p := nrChainF (r.length + 1) r
        some (d ++ p.1, p.2)
    else none

/-- Python `re.findall(nr-pattern, text, IGNORECASE)`: leftmost
non-overlapping matches over the whole text, collecting captured groups. -/
def nrScanF : ℕ → List Char → List (List Char)
  | 0, _ => []
  | _ + 1, [] => []
  | fuel + 1, c :: rest =>
    match nrMatchHere (c :: rest) with
    | some p => p.1 :: nrScanF fuel p.2
    | none => nrScanF fuel rest

/-- Captured groups of the 5G regex over a whole text. -/
def nrGroups (cs : List Char) : List (List Char) := nrScanF (cs.length + 1) cs

/-- Inner loop `re.findall(r'\d+', match_group)`: the maximal digit runs of
a captured group, accumulated left to right (`cur` holds the reversed run
being built). -/
def runsAux : List Char → List Char → List (List Char)
  | cur, [] => if cur.isEmpty then [] else [cur.reverse]
  | cur, c :: rest =>
    if isDigitChar c then runsAux (c :: cur) rest
    else if cur.isEmpty then runsAux cur rest
    else cur.reverse :: runsAux [] rest

/-- Maximal digit runs of a character list. -/
def extractDigitRuns (l : List Char) : List (List Char) := runsAux [] l

/-- Suffix-and-boundary tail of the LTE token regex `(?:[abAB])?\b` after
the captured digits `d`, with `r` the text after the digits: greedily take
one band-class letter if a boundary follows it, otherwise require a
boundary right after the digits; on success return the capture and the
resumption text. -/
def lteTail (d r : List Char) : Option (List Char × List Char) :=
  match r with
  | [] => some (d, [])
  | c2 :: r2 =>
    if isClassChar c2 then
      match r2 with
      | [] => some (d, [])
      | c3 :: _ => if isWordChar c3 then none else some (d, r2)
    else if isWordChar c2 then none
    else some (d, r)

/-- Attempt of `\bB?(\d+)(?:[abAB])?\b` at the current position: word
boundary, optional `B`/`b` (kept only when digits follow), a maximal digit
run as the capture, then the suffix-and-boundary tail.  Backtracking into
the digit run can never rescue a failed tail, because the character after
a shortened run is a digit, which neither the class letter nor the final
boundary accepts. -/
def lteMatchHere (pw : Bool) : List Char → Option (List Char × List Char)
  | [] => none
  | c :: rest =>
    if pw != isWordChar c then
      if isBChar c then
        match rest with
        | [] => none
        | d0 :: rest2 =>
          if isDigitChar d0 then
            lteTail (d0 :: rest2.takeWhile isDigitChar) (rest2.dropWhile isDigitChar)
          else none
      else if isDigitChar c then
        lteTail (c :: rest.takeWhile isDigitChar) (rest.dropWhile isDigitChar)
      else none
    else none

/-- Python `re.findall(lte-pattern, clean_line, IGNORECASE)`: leftmost
non-overlapping matches, collecting the digit captures; after a hit the
scan resumes right after the match, whose last character is always a word
character. -/
def lteScanF : ℕ → Bool → List Char → List (List Char)
  | 0, _, _ => []
  | _ + 1, _, [] => []
  | fuel + 1, pw, c :: rest =>
    match lteMatchHere pw (c :: rest) with
    | some p => p.1 :: lteScanF fuel true p.2
    | none => lteScanF fuel (isWordChar c) rest

/-- LTE candidate digit groups of one raw line: strip the line, test the
keyword-or-`B`-prefix filter, delete parentheticals, scan for band tokens. -/
def lteCandidatesOfLine (line : List Char) : List (List Char) :=
  let ls := pyStrip line
  if lineEligible ls then
    let cl := stripParens ls
    lteScanF (cl.length + 1) false cl
  else []

/-- The `nr_bands` set: every digit run of every captured 5G group,
parsed and inserted (a failed parse is silently dropped). -/
def addNrCandidate (s : Finset ℕ) (g : List Char) : Finset ℕ :=
  match pyInt? g with
  | some n => insert n s
  | none => s

/-- The `lte_bands` set update for one candidate: parse, keep only bands
in the inclusive range 1–100 (a failed parse is silently dropped). -/
def addLteCandidate (s : Finset ℕ) (g : List Char) : Finset ℕ :=
  match pyInt? g with
  | some b => if 1 ≤ b ∧ b ≤ 100 then insert b s else s
  | none => s

/-- The 5G band set extracted from a text. -/
def nrBandsOf (cs : List Char) : Finset ℕ :=
  (nrGroups cs).foldl (fun s g => (extractDigitRuns g).foldl addNrCandidate s) ∅

/-- The LTE band set extracted from a text. -/
def lteBandsOf (cs : List Char) : Finset ℕ :=
  (splitLines cs).foldl (fun s line => (lteCandidatesOfLine line).foldl addLteCandidate s) ∅

/-- Structural sort of a multiset of naturals into an ascending list
(`sorted(list(s))` in the source); insertion sort keeps it
kernel-computable. -/
def msort (m : Multiset ℕ) : List ℕ :=
  Quot.liftOn m (fun l => l.insertionSort (· ≤ ·)) (fun a b h =>
    List.eq_of_perm_of_sorted
      ((List.perm_insertionSort _ a).trans
        ((show a.Perm b from h).trans (List.perm_insertionSort _ b).symm))
      (List.sorted_insertionSort _ a) (List.sorted_insertionSort _ b))

/-- Ascending list of the elements of a `Finset ℕ`. -/
def bandSort (s : Finset ℕ) : List ℕ := msort s.1

/-- Python `parse_phone_bands(text)`: the pair
`(sorted lte_bands, sorted nr_bands)`. -/
def parse_phone_bands (text : String) : List ℕ × List ℕ :=
  (bandSort (lteBandsOf text.data), bandSort (nrBandsOf text.data))

/-- One carrier's requirement record: the `'4G/LTE'`, `'Core LTE'` and
`'5G'` entries of the hard-coded table. -/
structure CarrierProfile where
  lte : Finset ℕ
  coreLte : Finset ℕ
  nr : Finset ℕ
deriving DecidableEq

/-- One carrier's comparison result: the five sorted lists the source
stores in its per-carrier dictionary. -/
structure CarrierReport where
  supported_lte : List ℕ
  supported_nr : List ℕ
  missing_lte : List ℕ
  missing_nr : List ℕ
  missing_core_lte : List ℕ
deriving DecidableEq

/-- Loop body of `compare_phone_to_carrier` for one carrier: intersections
and differences of the phone's sets with the carrier's sets, each sorted. -/
def compareOne (phoneLte phoneNr : Finset ℕ) (p : CarrierProfile) : CarrierReport :=
  { supported_lte := bandSort (phoneLte ∩ p.lte)
    supported_nr := bandSort (phoneNr ∩ p.nr)
    missing_lte := bandSort (p.lte \ phoneLte)
    missing_nr := bandSort (p.nr \ phoneNr)
    missing_core_lte := bandSort (p.coreLte ∩ (p.lte \ phoneLte)) }

/-- Python `compare_phone_to_carrier`: one report per carrier, in table
order (the insertion order of the carrier dictionary). -/
def compare_phone_to_carrier (phoneLte phoneNr : Finset ℕ)
    (carrier_data : List (String × CarrierProfile)) : List (String × CarrierReport) :=
  carrier_data.map (fun c => (c.1, compareOne phoneLte phoneNr c.2))

/-- Python `calculate_compatibility_score`: start at zero, add twice the
supported-LTE count, add the supported-NR count, subtract twice the
missing-core-LTE count, floor at zero.  The source computes in floats on
integer-valued operands, modelled exactly in `ℚ`. -/
def calculate_compatibility_score (r : CarrierReport) : ℚ :=
  max 0 (0 + (r.supported_lte.length : ℚ) * 2 + (r.supported_nr.length : ℚ) * 1
    - (r.missing_core_lte.length : ℚ) * 2)

/-- The `'Verizon'` entry of `get_us_carriers`. -/
def verizonProfile : CarrierProfile :=
  { lte := {2, 4, 5, 13, 41, 46, 48, 66, 71}
    coreLte := {2, 4, 13, 66}
    nr := {2, 5, 66, 77, 260, 261} }

/-- The `'AT&T'` entry of `get_us_carriers`. -/
def attProfile : CarrierProfile :=
  { lte := {2, 4, 5, 12, 14, 17, 29, 30, 66, 71}
    coreLte := {2, 4, 12, 17, 29}
    nr := {2, 5, 66, 77, 260} }

/-- The `'T-Mobile'` entry of `get_us_carriers`. -/
def tmobileProfile : CarrierProfile :=
  { lte := {2, 4, 5, 12, 25, 41, 66, 71}
    coreLte := {2, 4, 12, 71}
    nr := {2, 25, 38, 41, 71, 258, 260, 261} }

/-- Python `get_us_carriers`: the static three-carrier table, in source
order. -/
def get_us_carriers : List (String × CarrierProfile) :=
  [("Verizon", verizonProfile), ("AT&T", attProfile), ("T-Mobile", tmobileProfile)]

/-- Variant of `addNrCandidate` in which a per-candidate numeric-parse
failure is propagated as `Except.error` instead of being dropped; it is
used to show the drop branch of the source is unreachable. -/
def addNrCandidateE (s : Finset ℕ) (g : List Char) : Except Unit (Finset ℕ) :=
  match pyInt? g with
  | some n => Except.ok (insert n s)
  | none => Except.error ()

/-- Variant of `addLteCandidate` that propagates a numeric-parse failure. -/
def addLteCandidateE (s : Finset ℕ) (g : List Char) : Except Unit (Finset ℕ) :=
  match pyInt? g with
  | some b => Except.ok (if 1 ≤ b ∧ b ≤ 100 then insert b s else s)
  | none => Except.error ()

/-- The whole extraction with every per-candidate parse failure
propagated rather than silently dropped. -/
def parse_phone_bands_exc (text : String) : Except Unit (List ℕ × List ℕ) := do
  let nr ← (nrGroups text.data).foldlM
    (fun s g => (extractDigitRuns g).foldlM addNrCandidateE s) (∅ : Finset ℕ)
  let lte ← (splitLines text.data).foldlM
    (fun s line => (lteCandidatesOfLine line).foldlM addLteCandidateE s) (∅ : Finset ℕ)
  Except.ok (bandSort lte, bandSort nr)

/-- Sorting a multiset yields an ascending list. -/
theorem msort_sorted (m : Multiset ℕ) : List.Sorted (· ≤ ·) (msort m) :=
  Quotient.inductionOn m fun l => List.sorted_insertionSort _ l

/-- The sorted list carries exactly the elements of the multiset. -/
theorem msort_coe (m : Multiset ℕ) : (↑(msort m) : Multiset ℕ) = m :=
  Quotient.inductionOn m fun l => Quot.sound (List.perm_insertionSort _ l)

/-- Membership in the sorted list of a multiset. -/
theorem mem_msort {m : Multiset ℕ} {a : ℕ} : a ∈ msort m ↔ a ∈ m := by
  rw [← Multiset.mem_coe, msort_coe]

/-- Membership in the sorted list of a finite set. -/
theorem mem_bandSort {s : Finset ℕ} {a : ℕ} : a ∈ bandSort s ↔ a ∈ s :=
  mem_msort.trans Finset.mem_def.symm

/-- The sorted list of a finite set is ascending. -/
theorem bandSort_sorted (s : Finset ℕ) : List.Sorted (· ≤ ·) (bandSort s) :=
  msort_sorted s.1

/-- The sorted list of a finite set has no duplicates. -/
theorem bandSort_nodup (s : Finset ℕ) : (bandSort s).Nodup := by
  have h : ((msort s.1 : List ℕ) : Multiset ℕ).Nodup := by
    rw [msort_coe]
    exact s.nodup
  exact h

/-- The sorted list of a finite set is strictly increasing. -/
theorem bandSort_sorted_lt (s : Finset ℕ) : List.Sorted (· < ·) (bandSort s) :=
  (bandSort_sorted s).lt_of_le (bandSort_nodup s)

/-- Turning the sorted list back into a finite set is the identity. -/
theorem bandSort_toFinset (s : Finset ℕ) : (bandSort s).toFinset = s := by
  ext a
  simp [mem_bandSort]

/-- Sorting the empty set gives the empty list. -/
theorem bandSort_empty : bandSort ∅ = [] := rfl

/-- C1: for every pair of device band sets and every carrier profile in
the carrier mapping, `compare_phone_to_carrier` produces for that carrier
the report whose fields are exactly `supportedLte = lteBands ∩
carrier.lteBands`, `missingLte = carrier.lteBands − lteBands`,
`missingCoreLte = carrier.coreLteBands ∩ missingLte`, `supportedNr =
nrBands ∩ carrier.nrBands`, `missingNr = carrier.nrBands − nrBands`, each
returned as an ascending (strictly increasing) sequence. -/
theorem compare_report_fields_exact (pl pn : Finset ℕ) (cd : List (String × CarrierProfile))
    (name : String) (p : CarrierProfile) (h : (name, p) ∈ cd) :
    (name, compareOne pl pn p) ∈ compare_phone_to_carrier pl pn cd ∧
    (compareOne pl pn p).supported_lte = bandSort (pl ∩ p.lte) ∧
    (compareOne pl pn p).missing_lte = bandSort (p.lte \ pl) ∧
    (compareOne pl pn p).missing_core_lte = bandSort (p.coreLte ∩ (p.lte \ pl)) ∧
    (compareOne pl pn p).supported_nr = bandSort (pn ∩ p.nr) ∧
    (compareOne pl pn p).missing_nr = bandSort (p.nr \ pn) ∧
    List.Sorted (· < ·) (compareOne pl pn p).supported_lte ∧
    List.Sorted (· < ·) (compareOne pl pn p).missing_lte ∧
    List.Sorted (· < ·) (compareOne pl pn p).missing_core_lte ∧
    List.Sorted (· < ·) (compareOne pl pn p).supported_nr ∧
    List.Sorted (· < ·) (compareOne pl pn p).missing_nr :=
  ⟨List.mem_map.mpr ⟨(name, p), h, rfl⟩, rfl, rfl, rfl, rfl, rfl,
    bandSort_sorted_lt _, bandSort_sorted_lt _, bandSort_sorted_lt _,
    bandSort_sorted_lt _, bandSort_sorted_lt _⟩

/-- Witness for C1 at a concrete device and the Verizon profile of the
static table. -/
theorem compare_report_fields_exact_witness :
    (("Verizon", verizonProfile) ∈ get_us_carriers) ∧
    (("Verizon", compareOne {2, 13} {5} verizonProfile) ∈
      compare_phone_to_carrier {2, 13} {5} get_us_carriers ∧
    (compareOne {2, 13} {5} verizonProfile).supported_lte =
      bandSort ({2, 13} ∩ verizonProfile.lte) ∧
    (compareOne {2, 13} {5} verizonProfile).missing_lte =
      bandSort (verizonProfile.lte \ {2, 13}) ∧
    (compareOne {2, 13} {5} verizonProfile).missing_core_lte =
      bandSort (verizonProfile.coreLte ∩ (verizonProfile.lte \ {2, 13})) ∧
    (compareOne {2, 13} {5} verizonProfile).supported_nr =
      bandSort ({5} ∩ verizonProfile.nr) ∧
    (compareOne {2, 13} {5} verizonProfile).missing_nr =
      bandSort (verizonProfile.nr \ {5}) ∧
    List.Sorted (· < ·) (compareOne {2, 13} {5} verizonProfile).supported_lte ∧
    List.Sorted (· < ·) (compareOne {2, 13} {5} verizonProfile).missing_lte ∧
    List.Sorted (· < ·) (compareOne {2, 13} {5} verizonProfile).missing_core_lte ∧
    List.Sorted (· < ·) (compareOne {2, 13} {5} verizonProfile).supported_nr ∧
    List.Sorted (· < ·) (compareOne {2, 13} {5} verizonProfile).missing_nr) :=
  ⟨by decide,
    compare_report_fields_exact {2, 13} {5} get_us_carriers "Verizon" verizonProfile (by decide)⟩

/-- C2: for every carrier report the compatibility score equals
`2.0 × |supportedLte| + 1.0 × |supportedNr| − 2.0 × |missingCoreLte|`
floored at 0, and in particular it is never negative. -/
theorem score_formula_and_nonneg (r : CarrierReport) :
    calculate_compatibility_score r =
      max 0 (2 * (r.supported_lte.length : ℚ) + 1 * (r.supported_nr.length : ℚ)
        - 2 * (r.missing_core_lte.length : ℚ)) ∧
    0 ≤ calculate_compatibility_score r := by
  constructor
  · unfold calculate_compatibility_score
    congr 1
    ring
  · exact le_max_left 0 _

/-- C3, counterexample: on the input of Scenario B the extractor does not
return `lteBands = [41]`, `nrBands = [1, 2, 3]` as claimed. -/
theorem scenario_b_claim_false :
    ¬ parse_phone_bands "n1/2/3 5G, B41 LTE" = ([41], [1, 2, 3]) := by decide

/-- C3, amended: on the input of Scenario B the extractor returns
`lteBands = [2, 3, 41]` and `nrBands = [1, 2, 3, 5]` — the 5G chain also
crosses the whitespace into the `5` of `5G`, and the keyword-eligible
line contributes the `2` and `3` of `n1/2/3` as LTE candidates. -/
theorem scenario_b_actual :
    parse_phone_bands "n1/2/3 5G, B41 LTE" = ([2, 3, 41], [1, 2, 3, 5]) := by decide

/-- C4: each report satisfies the partition invariant: supported and
missing LTE lists are disjoint and together carry exactly the carrier's
LTE set, likewise for NR, and the missing-core list is contained both in
the missing-LTE list and in the carrier's core set. -/
theorem report_partition_invariant (pl pn : Finset ℕ) (p : CarrierProfile) :
    (compareOne pl pn p).supported_lte.toFinset ∩
      (compareOne pl pn p).missing_lte.toFinset = ∅ ∧
    (compareOne pl pn p).supported_lte.toFinset ∪
      (compareOne pl pn p).missing_lte.toFinset = p.lte ∧
    (compareOne pl pn p).supported_nr.toFinset ∩
      (compareOne pl pn p).missing_nr.toFinset = ∅ ∧
    (compareOne pl pn p).supported_nr.toFinset ∪
      (compareOne pl pn p).missing_nr.toFinset = p.nr ∧
    (compareOne pl pn p).missing_core_lte.toFinset ⊆
      (compareOne pl pn p).missing_lte.toFinset ∧
    (compareOne pl pn p).missing_core_lte.toFinset ⊆ p.coreLte := by
  simp only [compareOne, bandSort_toFinset]
  refine ⟨?_, ?_, ?_, ?_, Finset.inter_subset_right, Finset.inter_subset_left⟩
  · ext x
    simp only [Finset.mem_inter, Finset.mem_sdiff, Finset.not_mem_empty, iff_false]
    tauto
  · ext x
    simp only [Finset.mem_union, Finset.mem_inter, Finset.mem_sdiff]
    tauto
  · ext x
    simp only [Finset.mem_inter, Finset.mem_sdiff, Finset.not_mem_empty, iff_false]
    tauto
  · ext x
    simp only [Finset.mem_union, Finset.mem_inter, Finset.mem_sdiff]
    tauto

/-- C5: on `B28A (700)` the extractor returns `lteBands = [28]` — the
parenthesized frequency is stripped before scanning, so 700 is never
extracted, and the trailing class letter `A` is discarded. -/
theorem scenario_c_paren_and_class_letter :
    parse_phone_bands "B28A (700)" = ([28], []) := by decide

/-- C6: the empty string parses to two empty sequences, and evaluating
empty band sets against any carrier whose core set is contained in its
LTE set (the data-model invariant of a carrier profile) yields no
supported bands, the carrier's full LTE set as missing, and the carrier's
full core set as missing-core. -/
theorem empty_input_full_missing (p : CarrierProfile) (hcore : p.coreLte ⊆ p.lte) :
    parse_phone_bands "" = ([], []) ∧
    (compareOne ∅ ∅ p).supported_lte = [] ∧
    (compareOne ∅ ∅ p).supported_nr = [] ∧
    (compareOne ∅ ∅ p).missing_lte = bandSort p.lte ∧
    (compareOne ∅ ∅ p).missing_nr = bandSort p.nr ∧
    (compareOne ∅ ∅ p).missing_core_lte = bandSort p.coreLte := by
  refine ⟨by decide, ?_, ?_, ?_, ?_, ?_⟩ <;>
    simp [compareOne, Finset.empty_inter, Finset.sdiff_empty,
      Finset.inter_eq_left.mpr hcore, bandSort_empty]

/-- Witness for C6 at the Verizon profile of the static table. -/
theorem empty_input_full_missing_witness :
    verizonProfile.coreLte ⊆ verizonProfile.lte ∧
    (parse_phone_bands "" = ([], []) ∧
    (compareOne ∅ ∅ verizonProfile).supported_lte = [] ∧
    (compareOne ∅ ∅ verizonProfile).supported_nr = [] ∧
    (compareOne ∅ ∅ verizonProfile).missing_lte = bandSort verizonProfile.lte ∧
    (compareOne ∅ ∅ verizonProfile).missing_nr = bandSort verizonProfile.nr ∧
    (compareOne ∅ ∅ verizonProfile).missing_core_lte = bandSort verizonProfile.coreLte) :=
  ⟨by decide, empty_input_full_missing verizonProfile (by decide)⟩

/-- Membership after one LTE-candidate step: either the element was
already present or it passed the 1–100 range filter. -/
theorem mem_addLteCandidate {s : Finset ℕ} {g : List Char} {y : ℕ}
    (hy : y ∈ addLteCandidate s g) : y ∈ s ∨ (1 ≤ y ∧ y ≤ 100) := by
  unfold addLteCandidate at hy
  split at hy
  · rename_i b _
    split at hy
    · rename_i hb
      rcases Finset.mem_insert.mp hy with h1 | h1
      · rw [h1]
        exact Or.inr hb
      · exact Or.inl h1
    · exact Or.inl hy
  · exact Or.inl hy

/-- Folding LTE candidates preserves the 1–100 range invariant, because
`addLteCandidate` only inserts values that pass the range filter. -/
theorem mem_foldl_addLteCandidate (gs : List (List Char)) :
    ∀ s : Finset ℕ, (∀ x ∈ s, 1 ≤ x ∧ x ≤ 100) →
      ∀ x ∈ gs.foldl addLteCandidate s, 1 ≤ x ∧ x ≤ 100 := by
  induction gs with
  | nil =>
    intro s hs x hx
    rw [List.foldl_nil] at hx
    exact hs x hx
  | cons g gs ih =>
    intro s hs x hx
    rw [List.foldl_cons] at hx
    refine ih _ ?_ x hx
    intro y hy
    rcases mem_addLteCandidate hy with h1 | h1
    · exact hs y h1
    · exact h1

/-- Every extracted LTE band lies in the inclusive range 1–100. -/
theorem mem_lteBandsOf {cs : List Char} {x : ℕ} (hx : x ∈ lteBandsOf cs) :
    1 ≤ x ∧ x ≤ 100 := by
  unfold lteBandsOf at hx
  have main : ∀ (lines : List (List Char)) (s : Finset ℕ),
      (∀ y ∈ s, 1 ≤ y ∧ y ≤ 100) →
      ∀ y ∈ lines.foldl
        (fun s line => (lteCandidatesOfLine line).foldl addLteCandidate s) s,
        1 ≤ y ∧ y ≤ 100 := by
    intro lines
    induction lines with
    | nil =>
      intro s hs y hy
      rw [List.foldl_nil] at hy
      exact hs y hy
    | cons l ls ih =>
      intro s hs y hy
      rw [List.foldl_cons] at hy
      exact ih _ (mem_foldl_addLteCandidate _ s hs) y hy
  exact main _ ∅ (fun y hy => absurd hy (Finset.not_mem_empty y)) x hx

/-- C7: for every input text both returned sequences are strictly
increasing (hence duplicate-free), and every returned LTE band lies in
the inclusive range 1–100. -/
theorem output_sorted_and_lte_range (text : String) :
    List.Sorted (· < ·) (parse_phone_bands text).1 ∧
    List.Sorted (· < ·) (parse_phone_bands text).2 ∧
    ∀ b ∈ (parse_phone_bands text).1, 1 ≤ b ∧ b ≤ 100 :=
  ⟨bandSort_sorted_lt _, bandSort_sorted_lt _,
    fun _ hb => mem_lteBandsOf (mem_bandSort.mp hb)⟩

/-- C9, counterexample: on the input `n0` the extractor returns the NR
band 0, which is not strictly positive, so not every returned band value
is a positive integer. -/
theorem nr_zero_band_counterexample :
    parse_phone_bands "n0" = ([], [0]) ∧
    ¬ ∀ b ∈ (parse_phone_bands "n0").2, 0 < b := by decide

/-- C9, amended: every returned LTE band is strictly positive (the 1–100
filter guarantees it), while NR bands are only guaranteed to be
non-negative integers — the value 0 can occur on the NR side. -/
theorem lte_positive_nr_nonneg (text : String) :
    (∀ b ∈ (parse_phone_bands text).1, 0 < b) ∧
    ∀ b ∈ (parse_phone_bands text).2, 0 ≤ b :=
  ⟨fun _ hb => (mem_lteBandsOf (mem_bandSort.mp hb)).1, fun b _ => Nat.zero_le b⟩

/-- Every run accumulated by `runsAux` from an all-digit accumulator is a
nonempty digit string. -/
theorem runsAux_good : ∀ (l cur : List Char), cur.all isDigitChar = true →
    ∀ g ∈ runsAux cur l, g ≠ [] ∧ g.all isDigitChar = true := by
  intro l
  induction l with
  | nil =>
    intro cur hcur g hg
    unfold runsAux at hg
    split at hg
    · exact absurd hg (List.not_mem_nil g)
    · rename_i hc
      rcases List.mem_singleton.mp hg with h1
      constructor
      · rw [h1]
        simp only [ne_eq, List.reverse_eq_nil_iff]
        exact fun he => hc (by rw [he]; rfl)
      · rw [h1, List.all_reverse]
        exact hcur
  | cons c rest ih =>
    intro cur hcur g hg
    unfold runsAux at hg
    split at hg
    · rename_i hd
      exact ih (c :: cur) (by simp [List.all_cons, hd, hcur]) g hg
    · split at hg
      · exact ih cur hcur g hg
      · rename_i hd hc
        rcases List.mem_cons.mp hg with h1 | h1
        · constructor
          · rw [h1]
            simp only [ne_eq, List.reverse_eq_nil_iff]
            exact fun he => hc (by rw [he]; rfl)
          · rw [h1, List.all_reverse]
            exact hcur
        · exact ih [] rfl g h1

/-- Every digit run extracted from a captured 5G group is a nonempty
digit string. -/
theorem extractDigitRuns_good (g0 : List Char) :
    ∀ g ∈ extractDigitRuns g0, g ≠ [] ∧ g.all isDigitChar = true :=
  runsAux_good g0 [] rfl

/-- The capture returned by `lteTail` is exactly the digit run it was
given. -/
theorem lteTail_fst {d r : List Char} {p : List Char × List Char}
    (h : lteTail d r = some p) : p.1 = d := by
  unfold lteTail at h
  split at h
  · cases h
    rfl
  · split at h
    · split at h
      · cases h
        rfl
      · split at h
        · exact absurd h (by simp)
        · cases h
          rfl
    · split at h
      · exact absurd h (by simp)
      · cases h
        rfl

/-- A successful LTE token match captures a nonempty digit string. -/
theorem lteMatchHere_good {pw : Bool} {l : List Char} {p : List Char × List Char}
    (h : lteMatchHere pw l = some p) : p.1 ≠ [] ∧ p.1.all isDigitChar = true := by
  unfold lteMatchHere at h
  split at h
  · exact absurd h (by simp)
  · rename_i c rest
    split at h
    · split at h
      · split at h
        · exact absurd h (by simp)
        · rename_i d0 rest2
          split at h
          · rename_i hd0
            rw [lteTail_fst h]
            exact ⟨List.cons_ne_nil _ _, by simp [List.all_cons, hd0, List.all_takeWhile]⟩
          · exact absurd h (by simp)
      · split at h
        · rename_i hc
          rw [lteTail_fst h]
          exact ⟨List.cons_ne_nil _ _, by simp [List.all_cons, hc, List.all_takeWhile]⟩
        · exact absurd h (by simp)
    · exact absurd h (by simp)

/-- Every capture produced by the LTE token scan is a nonempty digit
string, whatever the fuel, start flag and text. -/
theorem lteScanF_good : ∀ (fuel : ℕ) (pw : Bool) (l : List Char),
    ∀ g ∈ lteScanF fuel pw l, g ≠ [] ∧ g.all isDigitChar = true := by
  intro fuel
  induction fuel with
  | zero =>
    intro pw l g hg
    exact absurd hg (List.not_mem_nil g)
  | succ n ih =>
    intro pw l g hg
    cases l with
    | nil => exact absurd hg (List.not_mem_nil g)
    | cons c rest =>
      unfold lteScanF at hg
      split at hg
      · rename_i p hp
        rcases List.mem_cons.mp hg with h1 | h1
        · rw [h1]
          exact lteMatchHere_good hp
        · exact ih true p.2 g h1
      · exact ih (isWordChar c) rest g hg

/-- Every LTE candidate of a line is a nonempty digit string. -/
theorem lteCandidatesOfLine_good (line : List Char) :
    ∀ g ∈ lteCandidatesOfLine line, g ≠ [] ∧ g.all isDigitChar = true := by
  intro g hg
  unfold lteCandidatesOfLine at hg
  simp only at hg
  split at hg
  · exact lteScanF_good _ _ _ g hg
  · exact absurd hg (List.not_mem_nil g)

/-- The Python-style integer parse succeeds on every nonempty digit
string. -/
theorem pyInt?_eq_some {g : List Char} (h1 : g ≠ []) (h2 : g.all isDigitChar = true) :
    pyInt? g = some (digitsToNat g) := by
  unfold pyInt?
  rw [if_neg (by simpa using h1), if_pos h2]

/-- A monadic fold over `Except` agrees with the plain fold when every
step succeeds. -/
theorem foldlM_eq_ok {α β : Type} (stepE : β → α → Except Unit β) (step : β → α → β) :
    ∀ (gs : List α), (∀ g ∈ gs, ∀ s, stepE s g = Except.ok (step s g)) →
      ∀ s : β, gs.foldlM stepE s = Except.ok (gs.foldl step s) := by
  intro gs
  induction gs with
  | nil =>
    intro _ s
    rfl
  | cons g gs ih =>
    intro hstep s
    rw [List.foldlM_cons, hstep g (List.mem_cons_self g gs) s]
    exact ih (fun g' hg' s' => hstep g' (List.mem_cons.mpr (Or.inr hg')) s') (step s g)

/-- The propagating NR step never fails on a digit-run candidate. -/
theorem addNrCandidateE_ok {g : List Char} (h1 : g ≠ []) (h2 : g.all isDigitChar = true)
    (s : Finset ℕ) : addNrCandidateE s g = Except.ok (addNrCandidate s g) := by
  unfold addNrCandidateE addNrCandidate
  rw [pyInt?_eq_some h1 h2]

/-- The propagating LTE step never fails on a digit-run candidate. -/
theorem addLteCandidateE_ok {g : List Char} (h1 : g ≠ []) (h2 : g.all isDigitChar = true)
    (s : Finset ℕ) : addLteCandidateE s g = Except.ok (addLteCandidate s g) := by
  unfold addLteCandidateE addLteCandidate
  rw [pyInt?_eq_some h1 h2]

/-- C8: `parse_phone_bands` and `compare_phone_to_carrier` are total: on
every input string the variant that propagates per-candidate numeric
parse failures still returns `ok` of the ordinary result — every regex
capture parses, so the silent-drop branch of the source is unreachable
and nothing can escalate — and the evaluator returns one report per
carrier of an arbitrary (possibly empty) mapping. -/
theorem parse_total_no_error (text : String) (pl pn : Finset ℕ)
    (cd : List (String × CarrierProfile)) :
    parse_phone_bands_exc text = Except.ok (parse_phone_bands text) ∧
    (compare_phone_to_carrier pl pn cd).length = cd.length := by
  constructor
  · have hnr : (nrGroups text.data).foldlM
        (fun s g => (extractDigitRuns g).foldlM addNrCandidateE s) (∅ : Finset ℕ) =
        Except.ok (nrBandsOf text.data) :=
      foldlM_eq_ok _ _ _
        (fun g _ s => foldlM_eq_ok _ _ _
          (fun r hr s' => addNrCandidateE_ok (extractDigitRuns_good g r hr).1
            (extractDigitRuns_good g r hr).2 s') s) ∅
    have hlte : (splitLines text.data).foldlM
        (fun s line => (lteCandidatesOfLine line).foldlM addLteCandidateE s) (∅ : Finset ℕ) =
        Except.ok (lteBandsOf text.data) :=
      foldlM_eq_ok _ _ _
        (fun line _ s => foldlM_eq_ok _ _ _
          (fun r hr s' => addLteCandidateE_ok (lteCandidatesOfLine_good line r hr).1
            (lteCandidatesOfLine_good line r hr).2 s') s) ∅
    unfold parse_phone_bands_exc
    rw [hnr, hlte]
    rfl
  · exact List.length_map cd _

/-- C10: the 5G scan requires no word boundary before the `n` marker, so
the `N2` inside the otherwise 5G-free token `GEN2` is extracted and the
returned NR sequence is the non-empty `[2]` (while no LTE band is found). -/
theorem nr_scan_no_word_boundary :
    parse_phone_bands "GEN2" = ([], [2]) := by decide

end BandCheck
